import Mathlib

/-!
Verification of the process-orchestration layer of the deve_rl training
harness.  The definitions below are shallow embeddings of the Python source:

* `ParallelAgent._divide_steps_and_episodes` (stacierl/agent/parallelagent.py)
* `Single.update` / `Single.evaluate`        (stacierl/agent/single.py)
* the worker loop `run` and the supervisor-side handle
  `SingleAgentProcess`                        (eve_rl/agent/singelagentprocess.py)
* the shared progress counters (modelled from the spec; the counter classes
  themselves are not part of the sources at hand).

Unbounded ("inf") step/episode budgets are modelled as `none : Option ℕ`;
`some n` is a finite budget.  This matches the Python code, where `inf`
compares greater than every integer.  The learning algorithm, environment and
replay buffer are external collaborators and appear as oracle parameters.
-/

/-- Python `math.ceil(s / n)` for non-negative integers, as exact
ceiling division on naturals. -/
def ceilDiv (s n : ℕ) : ℕ := (s + n - 1) / n

namespace ParallelAgent

/-- Embedding of `ParallelAgent._divide_steps_and_episodes`: a finite budget
is split by ceiling division over the `nAgents` workers, an unbounded budget
(`none`) stays unbounded. -/
def divide_steps_and_episodes (nAgents : ℕ) (steps episodes : Option ℕ) :
    Option ℕ × Option ℕ :=
  let stepsPerAgent :=
    match steps with
    | some s => some (ceilDiv s nAgents)
    | none => none
  let episodesPerAgent :=
    match episodes with
    | some e => some (ceilDiv e nAgents)
    | none => none
  (stepsPerAgent, episodesPerAgent)

/-- The step-budget fan-out performed by the orchestrator's
`_heatup`/`_explore`/`_evaluate`/`_update` methods: every one of the
`nAgents` handles is issued the same per-agent share computed by
`divide_steps_and_episodes`. -/
def divideBudget (steps : Option ℕ) (nAgents : ℕ) : List (Option ℕ) :=
  List.replicate nAgents (divide_steps_and_episodes nAgents steps none).1

end ParallelAgent

/-- Kind of exception escaping the algorithm's optimization step.  The worker
loop in `run` distinguishes `ValueError` (caught next to the `update`
dispatch) from every other exception (caught at the loop boundary). -/
structure AlgoErr where
  isValueError : Bool
deriving DecidableEq, Repr

namespace Single

/-- The fields of `Single` (and of the shared counters it mutates) that the
`update` code path reads or writes.  `algoUpdateCalls` counts the calls made
to `algo.update`, `sampleCalls` the calls to `replay_buffer.sample()`. -/
structure SingleState where
  replayLen : ℕ
  batchSize : ℕ
  replayTooSmall : Bool
  stepUpdate : ℕ
  stepExploration : ℕ
  lrSchedulerSteps : ℕ
  algoUpdateCalls : ℕ
  sampleCalls : ℕ
deriving DecidableEq, Repr

/-- Inner loop of `Single.update`:
`while self.algo.lr_scheduler_step_counter < self.step_counter.exploration:
self.algo.lr_scheduler_step()`.  Each scheduler step advances the
algorithm's scheduler counter by one (the algorithm is an external
collaborator; only the counter is observable here). -/
def lrSchedulerLoopAux : ℕ → SingleState → SingleState
  | 0, s => s
  | fuel + 1, s =>
    if s.lrSchedulerSteps < s.stepExploration then
      lrSchedulerLoopAux fuel {s with lrSchedulerSteps := s.lrSchedulerSteps + 1}
    else s

/-- The loop condition re-checks `lr_scheduler_step_counter <
step_counter.exploration` each pass; the fuel is exact because every pass
increments the scheduler counter. -/
def lrSchedulerLoop (s : SingleState) : SingleState :=
  lrSchedulerLoopAux (s.stepExploration - s.lrSchedulerSteps) s

/-- The `while self.step_counter.update < step_limit` loop of
`Single.update`.  `algo k` is the outcome of the `k`-th call (counted from
process start) to `algo.update`; an `Except.error` is an exception
propagating out of the optimization step, which aborts the loop and discards
the partial `results` list.  `fuel` is an upper bound on the remaining
iterations; `update` supplies `stepLimit - stepUpdate`, which is exact
because every iteration increments `stepUpdate`. -/
def updateLoop (algo : ℕ → Except AlgoErr ℕ) (stepLimit : ℕ) :
    ℕ → SingleState → List ℕ → Except AlgoErr (List ℕ) × SingleState
  | 0, s, results => (Except.ok results, s)
  | fuel + 1, s, results =>
    if s.stepUpdate < stepLimit then
      let s1 : SingleState := {s with stepUpdate := s.stepUpdate + 1}
      let s2 : SingleState := {s1 with sampleCalls := s1.sampleCalls + 1}
      match algo s2.algoUpdateCalls with
      | Except.error e =>
        (Except.error e, {s2 with algoUpdateCalls := s2.algoUpdateCalls + 1})
      | Except.ok metric =>
        let s3 : SingleState := {s2 with algoUpdateCalls := s2.algoUpdateCalls + 1}
        let s4 := lrSchedulerLoop s3
        updateLoop algo stepLimit fuel s4 (results ++ [metric])
    else (Except.ok results, s)

/-- Embedding of `Single.update`.  The limit-conversion helper
`_log_and_convert_limits` is not among the sources at hand, so `stepLimit`
is taken as the already-converted absolute step limit (the theorems
quantify over it); `steps` is the raw `steps` argument, only inspected by
the guard `steps == 0` (in Python `None == 0` is `False`).  The
replay-too-small guard is re-checked lazily, exactly as in the source:
the cached flag is recomputed (`replay_len <= batch_size`) only while it
is still `true`. -/
def update (algo : ℕ → Except AlgoErr ℕ) (steps : Option ℕ) (stepLimit : ℕ)
    (s : SingleState) : Except AlgoErr (List ℕ) × SingleState :=
  let s' : SingleState :=
    if s.replayTooSmall then
      {s with replayTooSmall := decide (s.replayLen ≤ s.batchSize)}
    else s
  if s'.replayTooSmall ∨ stepLimit = 0 ∨ steps = some 0 then (Except.ok [], s')
  else updateLoop algo stepLimit (stepLimit - s'.stepUpdate) s' []

/-- Helper shared by the replay-buffer guard claims: whenever the stored
transitions do not exceed the batch size and the cached flag is consistent
with the buffer (`false` only after the buffer was seen strictly larger than
a batch, which is preserved because the buffer never shrinks), `update`
returns an empty result without any optimization or sampling call. -/
theorem update_noop_of_le (algo : ℕ → Except AlgoErr ℕ) (steps : Option ℕ)
    (stepLimit : ℕ) (s : SingleState)
    (hinv : s.replayTooSmall = false → s.batchSize < s.replayLen)
    (hle : s.replayLen ≤ s.batchSize) :
    (update algo steps stepLimit s).1 = Except.ok [] ∧
    (update algo steps stepLimit s).2.algoUpdateCalls = s.algoUpdateCalls ∧
    (update algo steps stepLimit s).2.sampleCalls = s.sampleCalls := by
  have hflag : s.replayTooSmall = true := by
    cases h : s.replayTooSmall
    · exact absurd (hinv h) (by omega)
    · rfl
  unfold update
  simp [hflag, hle]

end Single

/-- Claim C6: for all N ≥ 1 and every finite non-negative steps budget, the
orchestrator's budget division returns N integers (each share the ceiling of
steps/N) whose sum is at least `steps` and at most `steps + N - 1`, and
dividing an unbounded budget returns N unbounded shares. -/
theorem claim_C6_divide_budget (steps nAgents : ℕ) (hN : 1 ≤ nAgents) :
    (ParallelAgent.divideBudget (some steps) nAgents).length = nAgents ∧
    ParallelAgent.divideBudget (some steps) nAgents =
      List.replicate nAgents (some (ceilDiv steps nAgents)) ∧
    steps ≤ ((ParallelAgent.divideBudget (some steps) nAgents).map
      (fun b => b.getD 0)).sum ∧
    ((ParallelAgent.divideBudget (some steps) nAgents).map
      (fun b => b.getD 0)).sum ≤ steps + nAgents - 1 ∧
    ParallelAgent.divideBudget none nAgents = List.replicate nAgents none := by
  have hshape : ParallelAgent.divideBudget (some steps) nAgents =
      List.replicate nAgents (some (ceilDiv steps nAgents)) := rfl
  have hsum : ((ParallelAgent.divideBudget (some steps) nAgents).map
      (fun b => b.getD 0)).sum = nAgents * ceilDiv steps nAgents := by
    rw [hshape, List.map_replicate, List.sum_replicate]
    simp [Nat.smul_one_eq_cast]
  have hdm := Nat.div_add_mod (steps + nAgents - 1) nAgents
  have hmod : (steps + nAgents - 1) % nAgents < nAgents :=
    Nat.mod_lt _ (by omega)
  have hbounds : steps ≤ nAgents * ceilDiv steps nAgents ∧
      nAgents * ceilDiv steps nAgents ≤ steps + nAgents - 1 := by
    simp only [ceilDiv]
    generalize hP : nAgents * ((steps + nAgents - 1) / nAgents) = P at hdm ⊢
    omega
  refine ⟨by rw [hshape]; simp, hshape, ?_, ?_, rfl⟩
  · rw [hsum]; exact hbounds.1
  · rw [hsum]; exact hbounds.2

/-- Witness for C6 at a concrete input: 17 steps over 5 agents. -/
theorem claim_C6_witness :
    (ParallelAgent.divideBudget (some 17) 5).length = 5 ∧
    ParallelAgent.divideBudget (some 17) 5 =
      List.replicate 5 (some (ceilDiv 17 5)) ∧
    17 ≤ ((ParallelAgent.divideBudget (some 17) 5).map
      (fun b => b.getD 0)).sum ∧
    ((ParallelAgent.divideBudget (some 17) 5).map
      (fun b => b.getD 0)).sum ≤ 17 + 5 - 1 ∧
    ParallelAgent.divideBudget none 5 = List.replicate 5 none :=
  claim_C6_divide_budget 17 5 (by decide)

/-- Claim C3: while the replay buffer holds fewer stored transitions than its
batch size, `update` returns an empty result, makes zero calls to the
algorithm's optimization step, and never returns an error, regardless of the
requested number of steps.  The hypothesis `hinv` is the reachability
invariant of the lazily cached flag: it is `false` only after the buffer was
observed strictly larger than one batch, and the buffer never shrinks. -/
theorem claim_C3_update_noop_replay_small (algo : ℕ → Except AlgoErr ℕ)
    (steps : Option ℕ) (stepLimit : ℕ) (s : Single.SingleState)
    (hinv : s.replayTooSmall = false → s.batchSize < s.replayLen)
    (hsmall : s.replayLen < s.batchSize) :
    (Single.update algo steps stepLimit s).1 = Except.ok [] ∧
    (Single.update algo steps stepLimit s).2.algoUpdateCalls =
      s.algoUpdateCalls := by
  have h := Single.update_noop_of_le algo steps stepLimit s hinv
    (Nat.le_of_lt hsmall)
  exact ⟨h.1, h.2.1⟩

/-- Witness for C3 at a concrete input: buffer of 3 transitions, batch size
5, fresh cached flag, a budget of 7 steps. -/
theorem claim_C3_witness :
    (Single.update (fun k => Except.ok k) (some 7) 7
      ⟨3, 5, true, 0, 0, 0, 0, 0⟩).1 = Except.ok [] ∧
    (Single.update (fun k => Except.ok k) (some 7) 7
      ⟨3, 5, true, 0, 0, 0, 0, 0⟩).2.algoUpdateCalls = 0 :=
  claim_C3_update_noop_replay_small (fun k => Except.ok k) (some 7) 7
    ⟨3, 5, true, 0, 0, 0, 0, 0⟩ (by simp) (by decide)

/-- Claim C10: when the stored-transition count is exactly equal to the batch
size, `update` still treats the buffer as too small (the lazy guard compares
with `<=`): it returns an empty result and performs no optimization call.
`hinv` is the same cached-flag reachability invariant as in the previous
guard theorem. -/
theorem claim_C10_update_noop_replay_equal (algo : ℕ → Except AlgoErr ℕ)
    (steps : Option ℕ) (stepLimit : ℕ) (s : Single.SingleState)
    (hinv : s.replayTooSmall = false → s.batchSize < s.replayLen)
    (heq : s.replayLen = s.batchSize) :
    (Single.update algo steps stepLimit s).1 = Except.ok [] ∧
    (Single.update algo steps stepLimit s).2.algoUpdateCalls =
      s.algoUpdateCalls := by
  have h := Single.update_noop_of_le algo steps stepLimit s hinv
    (Nat.le_of_eq heq)
  exact ⟨h.1, h.2.1⟩

/-- Witness for C10 at a concrete input: buffer length and batch size both 4.
-/
theorem claim_C10_witness :
    (Single.update (fun k => Except.ok k) (some 5) 5
      ⟨4, 4, true, 0, 0, 0, 0, 0⟩).1 = Except.ok [] ∧
    (Single.update (fun k => Except.ok k) (some 5) 5
      ⟨4, 4, true, 0, 0, 0, 0, 0⟩).2.algoUpdateCalls = 0 :=
  claim_C10_update_noop_replay_equal (fun k => Except.ok k) (some 5) 5
    ⟨4, 4, true, 0, 0, 0, 0, 0⟩ (by simp) (by decide)

namespace Single

/-- One episode as observed from the `evaluate` loop: the seed and options
entry handed to `env.reset` (through `_play_episode`), and the number of
environment steps the episode took.  Option payloads are abstracted to a
numeric token. -/
structure EvEpisode where
  seed : Option ℕ
  opts : Option ℕ
  steps : ℕ
deriving DecidableEq, Repr

/-- The counter fields read and written by `Single.evaluate`.  `playCalls`
counts the `_play_episode` invocations and indexes the environment oracle. -/
structure EvalState where
  epEvaluation : ℕ
  stepEvaluation : ℕ
  playCalls : ℕ
deriving DecidableEq, Repr

/-- Exceptions relevant to the evaluate path (`list.pop` on an empty list)
and to queue operations on closed channels. -/
inductive PyErr
  | indexError
  | valueError
deriving DecidableEq, Repr

/-- Python truthiness of the optional seed/options lists: `not seeds` is
`True` exactly when the argument is `None` or the empty list. -/
def listFalsy : Option (List ℕ) → Bool
  | none => true
  | some l => l.isEmpty

/-- Embedding of `seeds.pop(-1) if seeds is not None else None`: pops the last element of
a present list (raising `IndexError` when it is empty), returns `None`
untouched for an absent list. -/
def popLast : Option (List ℕ) → Except PyErr (Option ℕ × Option (List ℕ))
  | none => Except.ok (none, none)
  | some l =>
    match l.getLast? with
    | none => Except.error PyErr.indexError
    | some v => Except.ok (some v, some l.dropLast)

/-- Comparison `n > limit` against a possibly unbounded limit (`inf` compares greater
than every integer, so `n > inf` is `False`). -/
def gtLim (n : ℕ) : Option ℕ → Bool
  | none => false
  | some m => decide (m < n)

/-- The `while True` body of `Single.evaluate`.  Per iteration: the episode
counter is incremented, one seed and one options entry are popped (LIFO to
match `pop(-1)`), one episode is played (`env k` is the step count of the
`k`-th played episode), the step counter advances, and the loop breaks when
`(not seeds and not options)` holds for the remaining lists or a counter
exceeds its limit.  `fuel` bounds the iterations; `evaluate` passes a bound
that is always sufficient because every iteration that recurses strictly
shrinks a present list. -/
def evaluateLoop (env : ℕ → ℕ) (stepLimit episodeLimit : Option ℕ) :
    ℕ → Option (List ℕ) → Option (List ℕ) → EvalState → List EvEpisode →
    Option (Except PyErr (List EvEpisode × EvalState))
  | 0, _, _, _, _ => none
  | fuel + 1, seeds, opts, s, acc =>
    let s0 : EvalState := {s with epEvaluation := s.epEvaluation + 1}
    match popLast seeds with
    | Except.error e => some (Except.error e)
    | Except.ok (nextSeed, seeds') =>
      match popLast opts with
      | Except.error e => some (Except.error e)
      | Except.ok (nextOpts, opts') =>
        let nSteps := env s0.playCalls
        let ep : EvEpisode := ⟨nextSeed, nextOpts, nSteps⟩
        let s1 : EvalState :=
          {s0 with stepEvaluation := s0.stepEvaluation + nSteps,
                   playCalls := s0.playCalls + 1}
        let acc' := acc ++ [ep]
        if (listFalsy seeds' && listFalsy opts')
            || gtLim s1.stepEvaluation stepLimit
            || gtLim s1.epEvaluation episodeLimit then
          some (Except.ok (acc', s1))
        else evaluateLoop env stepLimit episodeLimit fuel seeds' opts' s1 acc'

/-- Length of an optional list, absent lists counting 0. -/
def lenOf : Option (List ℕ) → ℕ
  | none => 0
  | some l => l.length

/-- Embedding of `Single.evaluate`.  As for `update`, the limit-conversion
helper is not among the sources at hand and the limits are taken as
already-converted absolute values (`none` = unbounded).  The fuel
`lenOf seeds + lenOf opts + 1` dominates the iteration count: the loop only
recurses while some present list is nonempty, and then shrinks it. -/
def evaluate (env : ℕ → ℕ) (stepLimit episodeLimit : Option ℕ)
    (seeds opts : Option (List ℕ)) (s : EvalState) :
    Option (Except PyErr (List EvEpisode × EvalState)) :=
  evaluateLoop env stepLimit episodeLimit (lenOf seeds + lenOf opts + 1)
    seeds opts s []

end Single

namespace Single

/-- Expected episode list of the evaluate loop: `c` is the seed list in
consumption order (the reverse of the caller's list, because seeds are
popped from the end), `oc` the options list in consumption order, `k` the
index of the first episode played. -/
def evalSpecEps (env : ℕ → ℕ) : List ℕ → Option (List ℕ) → ℕ → List EvEpisode
  | [], _, _ => []
  | a :: rest, oc, k =>
    ⟨some a, oc.bind List.head?, env k⟩ ::
      evalSpecEps env rest (oc.map List.tail) (k + 1)

/-- Expected counter state after the evaluate loop consumed the seed list
`c`. -/
def evalSpecState (env : ℕ → ℕ) : List ℕ → EvalState → EvalState
  | [], s => s
  | _ :: rest, s =>
    evalSpecState env rest
      ⟨s.epEvaluation + 1, s.stepEvaluation + env s.playCalls, s.playCalls + 1⟩

theorem evalSpecEps_length (env : ℕ → ℕ) (c : List ℕ) :
    ∀ (oc : Option (List ℕ)) (k : ℕ), (evalSpecEps env c oc k).length = c.length := by
  induction c with
  | nil => intro oc k; rfl
  | cons a rest ih => intro oc k; simp [evalSpecEps, ih]

theorem evalSpecEps_map_seed (env : ℕ → ℕ) (c : List ℕ) :
    ∀ (oc : Option (List ℕ)) (k : ℕ),
      (evalSpecEps env c oc k).map EvEpisode.seed = c.map some := by
  induction c with
  | nil => intro oc k; rfl
  | cons a rest ih => intro oc k; simp [evalSpecEps, ih]

theorem evalSpecEps_map_opts_none (env : ℕ → ℕ) (c : List ℕ) :
    ∀ (k : ℕ), (evalSpecEps env c none k).map EvEpisode.opts =
      List.replicate c.length none := by
  induction c with
  | nil => intro k; rfl
  | cons a rest ih => intro k; simp [evalSpecEps, ih, List.replicate_succ]

theorem evalSpecEps_map_opts_some (env : ℕ → ℕ) (c : List ℕ) :
    ∀ (l : List ℕ) (k : ℕ), l.length = c.length →
      (evalSpecEps env c (some l) k).map EvEpisode.opts = l.map some := by
  induction c with
  | nil =>
    intro l k hlen
    simp only [List.length_nil] at hlen
    rw [List.length_eq_zero] at hlen
    subst hlen; rfl
  | cons a rest ih =>
    intro l k hlen
    cases l with
    | nil => simp at hlen
    | cons b bs =>
      simp only [List.length_cons] at hlen
      simp [evalSpecEps, ih bs (k + 1) (by omega)]

/-- Core lemma for the evaluate loop with unbounded limits: when the seed
list (given here through its consumption order `c`) is nonempty and the
options list is absent or of equal length, the loop runs one episode per
seed, consuming seeds (and options) from the end of the caller's lists. -/
theorem evaluateLoop_consume (env : ℕ → ℕ) (c : List ℕ) :
    ∀ (oc : Option (List ℕ)) (s : EvalState) (acc : List EvEpisode)
      (fuel : ℕ), c ≠ [] → c.length ≤ fuel →
      (oc = none ∨ ∃ l, oc = some l ∧ l.length = c.length) →
      evaluateLoop env none none fuel (some c.reverse) (oc.map List.reverse)
          s acc =
        some (Except.ok (acc ++ evalSpecEps env c oc s.playCalls,
          evalSpecState env c s)) := by
  induction c with
  | nil => intro oc s acc fuel hne; exact absurd rfl hne
  | cons a rest ih =>
    intro oc s acc fuel hne hfuel hopts
    cases fuel with
    | zero => simp at hfuel
    | succ f =>
      rcases hopts with rfl | ⟨l, rfl, hlen⟩
      · cases rest with
        | nil =>
          simp [evaluateLoop, popLast, List.getLast?_concat,
                List.dropLast_concat, listFalsy, gtLim, evalSpecEps,
                evalSpecState]
        | cons r rs =>
          have hstep := ih none
            ⟨s.epEvaluation + 1, s.stepEvaluation + env s.playCalls,
             s.playCalls + 1⟩
            (acc ++ [⟨some a, none, env s.playCalls⟩]) f (by simp)
            (by simp only [List.length_cons] at hfuel ⊢; omega) (Or.inl rfl)
          simp only [show Option.map List.reverse (none : Option (List ℕ)) =
            none from rfl, List.reverse_cons] at hstep
          simp only [List.reverse_cons, evaluateLoop, popLast,
                     List.getLast?_concat, List.dropLast_concat,
                     listFalsy, gtLim]
          simp [hstep, evalSpecEps, evalSpecState, List.append_assoc]
      · cases l with
        | nil => simp at hlen
        | cons b bs =>
          simp only [List.length_cons] at hlen
          cases rest with
          | nil =>
            have hbs : bs = [] := by
              simpa [List.length_eq_zero] using hlen
            subst hbs
            simp [evaluateLoop, popLast, List.getLast?_concat,
                  List.dropLast_concat, listFalsy, gtLim, evalSpecEps,
                  evalSpecState]
          | cons r rs =>
            have hbs : bs ≠ [] := by
              intro h; subst h; simp at hlen
            have hstep := ih (some bs)
              ⟨s.epEvaluation + 1, s.stepEvaluation + env s.playCalls,
               s.playCalls + 1⟩
              (acc ++ [⟨some a, some b, env s.playCalls⟩]) f (by simp)
              (by simp only [List.length_cons] at hfuel ⊢; omega)
              (Or.inr ⟨bs, rfl, by omega⟩)
            simp only [show Option.map List.reverse (some bs) =
              some bs.reverse from rfl, List.reverse_cons] at hstep
            simp only [List.reverse_cons, evaluateLoop, popLast,
                       List.getLast?_concat, List.dropLast_concat,
                       listFalsy, gtLim]
            simp [hstep, evalSpecEps, evalSpecState, List.append_assoc]

end Single

/-- Claim C4 (amended): when neither a seed list nor an options list is
provided, the Python truthiness check `(not seeds and not options)` is
already true for the two `None` arguments, so the evaluate loop runs exactly
one episode and terminates, for every step/episode limit — it does not keep
running until a finite limit is reached. -/
theorem claim_C4_no_lists_single_episode (env : ℕ → ℕ)
    (stepLimit episodeLimit : Option ℕ) (s : Single.EvalState) :
    Single.evaluate env stepLimit episodeLimit none none s =
      some (Except.ok ([⟨none, none, env s.playCalls⟩],
        ⟨s.epEvaluation + 1, s.stepEvaluation + env s.playCalls,
         s.playCalls + 1⟩)) := by
  simp [Single.evaluate, Single.lenOf, Single.evaluateLoop, Single.popLast,
        Single.listFalsy]

/-- Counterexample to claim C4 as stated: with no seeds, no options, an
unbounded step limit and an episode limit of 3, the loop stops after a
single episode (the episode counter stands at 1, the limit 3 was never
reached), instead of running episodes until the limit. -/
theorem claim_C4_counterexample :
    Single.evaluate (fun _ => 1) none (some 3) none none ⟨0, 0, 0⟩ =
      some (Except.ok ([⟨none, none, 1⟩], ⟨1, 1, 1⟩)) ∧
    ([(⟨none, none, 1⟩ : Single.EvEpisode)].length = 1 ∧ (1 : ℕ) < 3) := by
  constructor
  · rfl
  · decide

/-- Claim C5 (amended): for a seed list of length n ≥ 1 and no step/episode
limit, evaluate runs exactly n episodes, consumes the seeds in reverse list
order (the last element first, since seeds are popped from the end), hands
each episode's reset its corresponding seed, and likewise its corresponding
options entry when an options list of equal length is given; for n = 0 the
first pop raises an IndexError instead. -/
theorem claim_C5_evaluate_seeds_reverse (env : ℕ → ℕ) (s : Single.EvalState)
    (seeds : List ℕ) (opts : Option (List ℕ)) (hne : seeds ≠ [])
    (hopts : opts = none ∨ ∃ l, opts = some l ∧ l.length = seeds.length) :
    Single.evaluate env none none (some seeds) opts s =
      some (Except.ok
        (Single.evalSpecEps env seeds.reverse (opts.map List.reverse)
          s.playCalls,
         Single.evalSpecState env seeds.reverse s)) ∧
    (Single.evalSpecEps env seeds.reverse (opts.map List.reverse)
      s.playCalls).length = seeds.length ∧
    (Single.evalSpecEps env seeds.reverse (opts.map List.reverse)
      s.playCalls).map Single.EvEpisode.seed = seeds.reverse.map some ∧
    (opts = none →
      (Single.evalSpecEps env seeds.reverse (opts.map List.reverse)
        s.playCalls).map Single.EvEpisode.opts =
        List.replicate seeds.length none) ∧
    (∀ l, opts = some l →
      (Single.evalSpecEps env seeds.reverse (opts.map List.reverse)
        s.playCalls).map Single.EvEpisode.opts = l.reverse.map some) := by
  have hrevne : seeds.reverse ≠ [] := by
    intro h
    exact hne (by simpa using congrArg List.reverse h)
  rcases hopts with rfl | ⟨l, rfl, hlen⟩
  · have h := Single.evaluateLoop_consume env seeds.reverse none s []
      (Single.lenOf (some seeds) + Single.lenOf none + 1) hrevne
      (by simp [Single.lenOf]) (Or.inl rfl)
    simp only [List.reverse_reverse, List.nil_append,
      show Option.map List.reverse (none : Option (List ℕ)) = none from rfl]
      at h
    refine ⟨h, ?_, ?_, ?_, ?_⟩
    · simpa using Single.evalSpecEps_length env seeds.reverse none s.playCalls
    · exact Single.evalSpecEps_map_seed env seeds.reverse none s.playCalls
    · intro _
      simpa using
        Single.evalSpecEps_map_opts_none env seeds.reverse s.playCalls
    · intro l hl; exact absurd hl (by simp)
  · have h := Single.evaluateLoop_consume env seeds.reverse
      (some l.reverse) s []
      (Single.lenOf (some seeds) + Single.lenOf (some l) + 1) hrevne
      (by simp only [Single.lenOf, List.length_reverse]; omega)
      (Or.inr ⟨l.reverse, rfl, by simp [hlen]⟩)
    simp only [List.reverse_reverse,  List.nil_append,
      show Option.map List.reverse (some l.reverse) = some l.reverse.reverse
        from rfl] at h
    refine ⟨h, ?_, ?_, ?_, ?_⟩
    · simpa using
        Single.evalSpecEps_length env seeds.reverse (some l.reverse)
          s.playCalls
    · exact Single.evalSpecEps_map_seed env seeds.reverse (some l.reverse)
        s.playCalls
    · intro hl; exact absurd hl (by simp)
    · intro l' hl'
      have hll : l' = l := (Option.some.inj hl').symm
      rw [hll]
      exact Single.evalSpecEps_map_opts_some env seeds.reverse l.reverse
        s.playCalls (by simp [hlen])

/-- Counterexample to claim C5 as stated at n = 0: evaluating with an empty
seed list does not return a normal (length-0) episode list — the first
`seeds.pop(-1)` raises an IndexError. -/
theorem claim_C5_counterexample :
    Single.evaluate (fun _ => 1) none none (some []) none ⟨0, 0, 0⟩ =
      some (Except.error Single.PyErr.indexError) := by rfl

/-- Witness for C5 at a concrete input: seeds [1, 2, 3] with a matching
options list [7, 8, 9]; the seeds are consumed as 3, 2, 1 and the options as
9, 8, 7. -/
theorem claim_C5_witness :
    Single.evaluate (fun k => k + 2) none none (some [1, 2, 3])
        (some [7, 8, 9]) ⟨0, 0, 0⟩ =
      some (Except.ok
        (Single.evalSpecEps (fun k => k + 2) [1, 2, 3].reverse
          ((some [7, 8, 9]).map List.reverse) 0,
         Single.evalSpecState (fun k => k + 2) [1, 2, 3].reverse ⟨0, 0, 0⟩)) ∧
    (Single.evalSpecEps (fun k => k + 2) [1, 2, 3].reverse
      ((some [7, 8, 9]).map List.reverse) 0).length = [1, 2, 3].length ∧
    (Single.evalSpecEps (fun k => k + 2) [1, 2, 3].reverse
      ((some [7, 8, 9]).map List.reverse) 0).map Single.EvEpisode.seed =
      [1, 2, 3].reverse.map some ∧
    ((some [7, 8, 9] : Option (List ℕ)) = none →
      (Single.evalSpecEps (fun k => k + 2) [1, 2, 3].reverse
        ((some [7, 8, 9]).map List.reverse) 0).map Single.EvEpisode.opts =
        List.replicate [1, 2, 3].length none) ∧
    (∀ l, (some [7, 8, 9] : Option (List ℕ)) = some l →
      (Single.evalSpecEps (fun k => k + 2) [1, 2, 3].reverse
        ((some [7, 8, 9]).map List.reverse) 0).map Single.EvEpisode.opts =
        l.reverse.map some) :=
  claim_C5_evaluate_seeds_reverse (fun k => k + 2) ⟨0, 0, 0⟩ [1, 2, 3]
    (some [7, 8, 9]) (by decide) (Or.inr ⟨[7, 8, 9], rfl, rfl⟩)

namespace Worker

/-- Tasks received over the worker's inbound channel, one constructor per
`task[0]` tag handled by the dispatch chain of `run`, plus `unknown` for any
other tag (a numeric token stands for an arbitrary unrecognised tag).
Payloads of the data-collection tasks are opaque to the dispatch and are
abstracted to a numeric token; the `update` task carries the arguments the
dispatch forwards to `agent.update`. -/
inductive RTask
  | heatup (args : ℕ)
  | explore (args : ℕ)
  | evaluate (args : ℕ)
  | update (steps : Option ℕ) (stepLimit : ℕ)
  | exploreAndUpdate (args : ℕ)
  | stateDictsNetwork (args : ℕ)
  | loadStateDictsNetwork (args : ℕ)
  | stateDictsOptimizer
  | loadStateDictsOptimizer (args : ℕ)
  | stateDictsScheduler
  | loadStateDictsScheduler (args : ℕ)
  | shutdown
  | unknown (tag : ℕ)
deriving DecidableEq, Repr

/-- Values the worker puts on the outbound result channel: a data-collection
outcome, a metrics list from `agent.update`, or a caught exception. -/
inductive RResult
  | episodes (payload : ℕ)
  | metrics (ms : List ℕ)
  | error (e : AlgoErr)
deriving DecidableEq, Repr

/-- The observable state of one worker process: the two shutdown events, the
log of values put on the result channel (`resultPuts`), the count of values
put on the model channel, the `Single` agent state driven by `update` tasks,
and the epilogue flags. -/
structure WorkerState where
  shutdownEvent : Bool
  isShutdownEvent : Bool
  resultPuts : List RResult
  modelPuts : ℕ
  single : Single.SingleState
  agentClosed : Bool
  queuesClosed : Bool
deriving DecidableEq, Repr

/-- Recognises the tags the dispatch chain of `run` does not handle (its
final `else: continue`). -/
def RTask.isUnknown : RTask → Bool
  | RTask.unknown _ => true
  | _ => false

/-- The `while not shutdown.is_set()` dispatch loop of `run`, driven by the
(finite) list of tasks arriving on the task channel.  `algo` is the
algorithm's optimization-step oracle threaded into `Single.update`;
`collect t` is the outcome of the data-collection operations
(`agent.heatup`/`explore`/`evaluate`/`explore_and_update`), which are
external to the update error handling under scrutiny.  A `ValueError`
escaping `agent.update` is handled next to the dispatch: the worker sets its
shutdown event and puts the error itself on the result channel.  Any other
exception escapes the dispatch; the second component reports it to the
caller (`run`), which models the `except Exception` boundary around the
loop. -/
def runLoop (algo : ℕ → Except AlgoErr ℕ) (collect : RTask → ℕ) :
    List RTask → WorkerState → WorkerState × Option AlgoErr
  | [], s => (s, none)
  | t :: ts, s =>
    if s.shutdownEvent then (s, none)
    else
      match t with
      | RTask.shutdown => (s, none)
      | RTask.unknown _ => runLoop algo collect ts s
      | RTask.stateDictsNetwork _ =>
        runLoop algo collect ts {s with modelPuts := s.modelPuts + 1}
      | RTask.loadStateDictsNetwork _ => runLoop algo collect ts s
      | RTask.stateDictsOptimizer =>
        runLoop algo collect ts {s with modelPuts := s.modelPuts + 1}
      | RTask.loadStateDictsOptimizer _ => runLoop algo collect ts s
      | RTask.stateDictsScheduler =>
        runLoop algo collect ts {s with modelPuts := s.modelPuts + 1}
      | RTask.loadStateDictsScheduler _ => runLoop algo collect ts s
      | RTask.update steps stepLimit =>
        match Single.update algo steps stepLimit s.single with
        | (Except.error e, single') =>
          if e.isValueError then
            runLoop algo collect ts
              {s with shutdownEvent := true, single := single',
                      resultPuts := s.resultPuts ++ [RResult.error e]}
          else ({s with single := single'}, some e)
        | (Except.ok ms, single') =>
          runLoop algo collect ts
            {s with single := single',
                    resultPuts := s.resultPuts ++ [RResult.metrics ms]}
      | t' =>
        runLoop algo collect ts
          {s with resultPuts := s.resultPuts ++ [RResult.episodes (collect t')]}

/-- The worker entry point `run`: the dispatch loop, the `except Exception`
boundary that puts an escaped exception on the result channel, and the
epilogue (`agent.close()`, drain and close all three queues, set the
`is_shutdown` event). -/
def run (algo : ℕ → Except AlgoErr ℕ) (collect : RTask → ℕ)
    (tasks : List RTask) (s0 : WorkerState) : WorkerState :=
  let r := runLoop algo collect tasks s0
  let s :=
    match r.2 with
    | some e => {r.1 with resultPuts := r.1.resultPuts ++ [RResult.error e]}
    | none => r.1
  {s with agentClosed := true, queuesClosed := true, isShutdownEvent := true}

/-- Once the shutdown event is set, the dispatch loop exits immediately. -/
theorem runLoop_shutdown (algo : ℕ → Except AlgoErr ℕ) (collect : RTask → ℕ)
    (ts : List RTask) (s : WorkerState) (h : s.shutdownEvent = true) :
    runLoop algo collect ts s = (s, none) := by
  cases ts with
  | nil => rfl
  | cons t ts => simp [runLoop, h]

end Worker

/-- Claim C8: a task whose tag is not one of the known task kinds is
silently ignored by the dispatch loop — it pushes no result, raises no
error, changes no state, and the loop continues polling: the loop behaves
exactly as if the unknown tasks were not in the task stream at all. -/
theorem claim_C8_unknown_tasks_ignored (algo : ℕ → Except AlgoErr ℕ)
    (collect : Worker.RTask → ℕ) (ts : List Worker.RTask)
    (s : Worker.WorkerState) (tag : ℕ) :
    Worker.runLoop algo collect ts s =
      Worker.runLoop algo collect
        (ts.filter (fun t => ! t.isUnknown)) s ∧
    Worker.runLoop algo collect (Worker.RTask.unknown tag :: ts) s =
      if s.shutdownEvent then (s, none)
      else Worker.runLoop algo collect ts s := by
  constructor
  · induction ts generalizing s with
    | nil => rfl
    | cons t ts ih =>
      by_cases hs : s.shutdownEvent = true
      · rw [Worker.runLoop_shutdown algo collect _ s hs,
            Worker.runLoop_shutdown algo collect _ s hs]
      · have hs' : s.shutdownEvent = false := by simpa using hs
        cases t with
        | update steps stepLimit =>
          cases hupd : Single.update algo steps stepLimit s.single with
          | mk res single' =>
            cases res with
            | error e =>
              cases hval : e.isValueError
              · simp [Worker.runLoop, hs', List.filter_cons,
                      Worker.RTask.isUnknown, hupd, hval]
              · simp [Worker.runLoop, hs', List.filter_cons,
                      Worker.RTask.isUnknown, hupd, hval, ih]
            | ok ms =>
              simp [Worker.runLoop, hs', List.filter_cons,
                    Worker.RTask.isUnknown, hupd, ih]
        | unknown tag' =>
          simp [Worker.runLoop, hs', List.filter_cons,
                Worker.RTask.isUnknown, ih]
        | heatup a =>
          simp [Worker.runLoop, hs', List.filter_cons,
                Worker.RTask.isUnknown, ih]
        | explore a =>
          simp [Worker.runLoop, hs', List.filter_cons,
                Worker.RTask.isUnknown, ih]
        | evaluate a =>
          simp [Worker.runLoop, hs', List.filter_cons,
                Worker.RTask.isUnknown, ih]
        | exploreAndUpdate a =>
          simp [Worker.runLoop, hs', List.filter_cons,
                Worker.RTask.isUnknown, ih]
        | stateDictsNetwork a =>
          simp [Worker.runLoop, hs', List.filter_cons,
                Worker.RTask.isUnknown, ih]
        | loadStateDictsNetwork a =>
          simp [Worker.runLoop, hs', List.filter_cons,
                Worker.RTask.isUnknown, ih]
        | stateDictsOptimizer =>
          simp [Worker.runLoop, hs', List.filter_cons,
                Worker.RTask.isUnknown, ih]
        | loadStateDictsOptimizer a =>
          simp [Worker.runLoop, hs', List.filter_cons,
                Worker.RTask.isUnknown, ih]
        | stateDictsScheduler =>
          simp [Worker.runLoop, hs', List.filter_cons,
                Worker.RTask.isUnknown, ih]
        | loadStateDictsScheduler a =>
          simp [Worker.runLoop, hs', List.filter_cons,
                Worker.RTask.isUnknown, ih]
        | shutdown =>
          simp [Worker.runLoop, hs', List.filter_cons,
                Worker.RTask.isUnknown]
  · by_cases hs : s.shutdownEvent = true
    · rw [Worker.runLoop_shutdown algo collect _ s hs]
      simp [hs]
    · have hs' : s.shutdownEvent = false := by simpa using hs
      simp [Worker.runLoop, hs']

/-- Claim C2 (amended): when the optimization step raises during an `Update`
task, the worker places exactly one error value — and no partial metrics —
on the result channel, exits its loop, and sets its termination flag
(`is_shutdown`), so `isAlive()` eventually reports false without the
supervisor calling `close()`; but the worker's own shutdown event is set
only when the exception is a `ValueError` (the handler next to the `update`
dispatch) — any other exception leaves the shutdown event unset and exits
through the loop-boundary `except Exception` handler instead. -/
theorem claim_C2_update_error (algo : ℕ → Except AlgoErr ℕ)
    (collect : Worker.RTask → ℕ) (steps : Option ℕ) (stepLimit : ℕ)
    (s0 : Worker.WorkerState) (e : AlgoErr)
    (hshut : s0.shutdownEvent = false)
    (hputs : s0.resultPuts = [])
    (herr : (Single.update algo steps stepLimit s0.single).1 =
      Except.error e) :
    (Worker.run algo collect [Worker.RTask.update steps stepLimit]
      s0).resultPuts = [Worker.RResult.error e] ∧
    (Worker.run algo collect [Worker.RTask.update steps stepLimit]
      s0).isShutdownEvent = true ∧
    (Worker.run algo collect [Worker.RTask.update steps stepLimit]
      s0).shutdownEvent = e.isValueError := by
  cases hupd : Single.update algo steps stepLimit s0.single with
  | mk res single' =>
    rw [hupd] at herr
    simp only at herr
    subst herr
    cases hval : e.isValueError
    · simp [Worker.run, Worker.runLoop, hshut, hupd, hval, hputs]
    · simp [Worker.run, Worker.runLoop, hshut, hupd, hval, hputs]

/-- Counterexample to claim C2 as stated: a non-`ValueError` exception
raised by the optimization step on its third call is caught at the loop
boundary and placed once on the result channel, but the worker's shutdown
event is NOT set (only the `is_shutdown` termination flag is), contradicting
"sets its own shutdown signal" for every exception. -/
theorem claim_C2_counterexample :
    (Worker.run (fun k => if k < 2 then Except.ok k else Except.error ⟨false⟩)
      (fun _ => 0) [Worker.RTask.update (some 10) 10]
      ⟨false, false, [], 0, ⟨10, 2, true, 0, 0, 0, 0, 0⟩, false,
        false⟩).resultPuts = [Worker.RResult.error ⟨false⟩] ∧
    (Worker.run (fun k => if k < 2 then Except.ok k else Except.error ⟨false⟩)
      (fun _ => 0) [Worker.RTask.update (some 10) 10]
      ⟨false, false, [], 0, ⟨10, 2, true, 0, 0, 0, 0, 0⟩, false,
        false⟩).isShutdownEvent = true ∧
    (Worker.run (fun k => if k < 2 then Except.ok k else Except.error ⟨false⟩)
      (fun _ => 0) [Worker.RTask.update (some 10) 10]
      ⟨false, false, [], 0, ⟨10, 2, true, 0, 0, 0, 0, 0⟩, false,
        false⟩).shutdownEvent = false := by
  refine ⟨?_, ?_, ?_⟩ <;> rfl

/-- Witness for C2 at a concrete input: the optimization step raises a
`ValueError` on its second call; the result channel receives exactly the one
error value, the termination flag and the shutdown event are both set. -/
theorem claim_C2_witness :
    (Worker.run (fun k => if k < 1 then Except.ok k else Except.error ⟨true⟩)
      (fun _ => 0) [Worker.RTask.update (some 10) 10]
      ⟨false, false, [], 0, ⟨10, 2, true, 0, 0, 0, 0, 0⟩, false,
        false⟩).resultPuts = [Worker.RResult.error ⟨true⟩] ∧
    (Worker.run (fun k => if k < 1 then Except.ok k else Except.error ⟨true⟩)
      (fun _ => 0) [Worker.RTask.update (some 10) 10]
      ⟨false, false, [], 0, ⟨10, 2, true, 0, 0, 0, 0, 0⟩, false,
        false⟩).isShutdownEvent = true ∧
    (Worker.run (fun k => if k < 1 then Except.ok k else Except.error ⟨true⟩)
      (fun _ => 0) [Worker.RTask.update (some 10) 10]
      ⟨false, false, [], 0, ⟨10, 2, true, 0, 0, 0, 0, 0⟩, false,
        false⟩).shutdownEvent = (⟨true⟩ : AlgoErr).isValueError :=
  claim_C2_update_error
    (fun k => if k < 1 then Except.ok k else Except.error ⟨true⟩)
    (fun _ => 0) (some 10) 10
    ⟨false, false, [], 0, ⟨10, 2, true, 0, 0, 0, 0, 0⟩, false, false⟩
    ⟨true⟩ rfl rfl rfl

namespace SingleAgentProcess

/-- Supervisor-side observable state of one `SingleAgentProcess` handle.
`processExists` is `self._process is not None`; `processAlive` is the OS
process's liveness; `shutdownEvent`/`isShutdownEvent` mirror the two
`mp.Event`s shared with the worker; `queuesClosed` says the three queues
have been closed (by whichever side); `taskPuts` counts the tasks enqueued
on the task channel. -/
structure HandleState where
  processExists : Bool
  processAlive : Bool
  shutdownEvent : Bool
  isShutdownEvent : Bool
  queuesClosed : Bool
  taskPuts : ℕ
deriving DecidableEq, Repr

/-- The one environment fact `close()` depends on: whether the worker
process exits on its own within the bounded `join(5)`.  A worker that exits
on its own has by then run its epilogue (drained and closed the queues and
set `is_shutdown`) — `run` does all of that before returning. -/
structure CloseEnv where
  selfTerminates : Bool
deriving DecidableEq, Repr

/-- Embedding of `mp.Queue.put` on the task channel: raises `ValueError` once the queue
has been closed, otherwise enqueues. -/
def putTask (s : HandleState) : Except Single.PyErr HandleState :=
  if s.queuesClosed then Except.error Single.PyErr.valueError
  else Except.ok {s with taskPuts := s.taskPuts + 1}

/-- Embedding of `SingleAgentProcess.close`.  Guarded by
`self._process is not None and self._process.is_alive()`; inside the guard
it raises the shutdown event, enqueues a `shutdown` task, joins with a
bounded timeout, and — if the process did not exit and its own termination
flag is unset — drains and closes the queues from the supervisor side before
killing the process; finally the handle is released
(`self._process = None`).  Outside the guard the call does nothing. -/
def close (env : CloseEnv) (s : HandleState) : Except Single.PyErr HandleState :=
  if s.processExists && s.processAlive then
    let s1 : HandleState := {s with shutdownEvent := true}
    match putTask s1 with
    | Except.error e => Except.error e
    | Except.ok s2 =>
      if env.selfTerminates then
        -- the worker ran its epilogue and exited within the join timeout
        Except.ok {s2 with processAlive := false, queuesClosed := true,
                           isShutdownEvent := true, processExists := false}
      else
        let s3 : HandleState :=
          if ! s2.isShutdownEvent then {s2 with queuesClosed := true} else s2
        -- kill, unconditional join, release the handle
        Except.ok {s3 with processAlive := false, processExists := false}
  else Except.ok s

/-- Embedding of `SingleAgentProcess.is_alive`: `False` once the handle is
released, otherwise the process's liveness. -/
def is_alive (s : HandleState) : Bool :=
  if s.processExists then s.processAlive else false

end SingleAgentProcess

/-- Claim C1: calling `close()` twice on a handle produces the same
observable end state as calling it once — process terminated, channels
closed, `isAlive()` false — and the second call is a no-op that never
raises.  The hypotheses are the sequentially reachable invariants of the
handle: the queues are closed exactly when the process is no longer alive
(a live worker has not yet run its epilogue, a worker that died cooperatively
has; a supervisor-side close both closes the queues and kills), and the
worker's termination flag implies the queues were closed by its epilogue. -/
theorem claim_C1_close_idempotent (env env' : SingleAgentProcess.CloseEnv)
    (s : SingleAgentProcess.HandleState)
    (hex : s.processExists = true)
    (hq1 : s.queuesClosed = true → s.processAlive = false)
    (hq2 : s.processAlive = false → s.queuesClosed = true)
    (hq3 : s.isShutdownEvent = true → s.queuesClosed = true) :
    ∃ s1, SingleAgentProcess.close env s = Except.ok s1 ∧
      s1.processAlive = false ∧
      s1.queuesClosed = true ∧
      SingleAgentProcess.is_alive s1 = false ∧
      SingleAgentProcess.close env' s1 = Except.ok s1 ∧
      SingleAgentProcess.is_alive s1 = false := by
  cases halive : s.processAlive
  · -- process already dead: the guard fails, close is a no-op
    refine ⟨s, ?_, halive, hq2 halive, ?_, ?_, ?_⟩ <;>
      simp [SingleAgentProcess.close, SingleAgentProcess.is_alive, halive,
            hex, hq2 halive]
  · -- live process: the guard passes and the queues cannot be closed yet
    have hqc : s.queuesClosed = false := by
      cases h : s.queuesClosed
      · rfl
      · exact absurd (hq1 h) (by simp [halive])
    have hisd : s.isShutdownEvent = false := by
      cases h : s.isShutdownEvent
      · rfl
      · exact absurd (hq3 h) (by simp [hqc])
    cases henv : env.selfTerminates
    · refine ⟨⟨false, false, true, false, true, s.taskPuts + 1⟩,
        ?_, rfl, rfl, rfl, ?_, rfl⟩
      · simp [SingleAgentProcess.close, SingleAgentProcess.putTask,
              halive, hex, hqc, hisd, henv]
      · simp [SingleAgentProcess.close]
    · refine ⟨⟨false, false, true, true, true, s.taskPuts + 1⟩,
        ?_, rfl, rfl, rfl, ?_, rfl⟩
      · simp [SingleAgentProcess.close, SingleAgentProcess.putTask,
              halive, hex, hqc, hisd, henv]
      · simp [SingleAgentProcess.close]

/-- Witness for C1 at a concrete input: a fresh handle over a live worker
that exits cooperatively on the first close. -/
theorem claim_C1_witness :
    ∃ s1, SingleAgentProcess.close ⟨true⟩ ⟨true, true, false, false, false, 0⟩
        = Except.ok s1 ∧
      s1.processAlive = false ∧
      s1.queuesClosed = true ∧
      SingleAgentProcess.is_alive s1 = false ∧
      SingleAgentProcess.close ⟨false⟩ s1 = Except.ok s1 ∧
      SingleAgentProcess.is_alive s1 = false :=
  claim_C1_close_idempotent ⟨true⟩ ⟨false⟩
    ⟨true, true, false, false, false, 0⟩ rfl (by decide) (by decide)
    (by decide)

namespace SingleAgentProcess

/-- Embedding of `SingleAgentProcess.heatup`: enqueues the task with NO try/except — a
`ValueError` from the closed task channel propagates to the caller. -/
def heatup (s : HandleState) : Except Single.PyErr (HandleState × Bool) :=
  match putTask s with
  | Except.error e => Except.error e
  | Except.ok s' => Except.ok (s', false)

/-- Embedding of `SingleAgentProcess.explore`: the enqueue is wrapped in
`try ... except ValueError: self.close()`.  The boolean records whether the
handle's close path was invoked. -/
def explore (env : CloseEnv) (s : HandleState) :
    Except Single.PyErr (HandleState × Bool) :=
  match putTask s with
  | Except.ok s' => Except.ok (s', false)
  | Except.error _ =>
    match close env s with
    | Except.ok s' => Except.ok (s', true)
    | Except.error e => Except.error e

/-- Embedding of `SingleAgentProcess.evaluate`: same try/except-close wrapper as
`explore`. -/
def evaluate (env : CloseEnv) (s : HandleState) :
    Except Single.PyErr (HandleState × Bool) :=
  match putTask s with
  | Except.ok s' => Except.ok (s', false)
  | Except.error _ =>
    match close env s with
    | Except.ok s' => Except.ok (s', true)
    | Except.error e => Except.error e

/-- Embedding of `SingleAgentProcess.update`: same try/except-close wrapper. -/
def update (env : CloseEnv) (s : HandleState) :
    Except Single.PyErr (HandleState × Bool) :=
  match putTask s with
  | Except.ok s' => Except.ok (s', false)
  | Except.error _ =>
    match close env s with
    | Except.ok s' => Except.ok (s', true)
    | Except.error e => Except.error e

/-- Embedding of `SingleAgentProcess.explore_and_update`: same try/except-close wrapper.
-/
def explore_and_update (env : CloseEnv) (s : HandleState) :
    Except Single.PyErr (HandleState × Bool) :=
  match putTask s with
  | Except.ok s' => Except.ok (s', false)
  | Except.error _ =>
    match close env s with
    | Except.ok s' => Except.ok (s', true)
    | Except.error e => Except.error e

end SingleAgentProcess

/-- Claim C7 (amended): when the task channel is already closed (which
sequentially implies the worker process is no longer alive), the enqueue
failure in `explore`, `evaluate`, `update` and `explore_and_update` is
caught and triggers the handle's own close path without raising; `heatup`,
whose enqueue has no try/except, is the exception: it propagates the
`ValueError` to the caller. -/
theorem claim_C7_dispatch_channel_closed (env : SingleAgentProcess.CloseEnv)
    (s : SingleAgentProcess.HandleState)
    (hqc : s.queuesClosed = true)
    (hdead : s.processAlive = false) :
    SingleAgentProcess.explore env s = Except.ok (s, true) ∧
    SingleAgentProcess.evaluate env s = Except.ok (s, true) ∧
    SingleAgentProcess.update env s = Except.ok (s, true) ∧
    SingleAgentProcess.explore_and_update env s = Except.ok (s, true) ∧
    SingleAgentProcess.heatup s = Except.error Single.PyErr.valueError := by
  have hclose : SingleAgentProcess.close env s = Except.ok s := by
    simp [SingleAgentProcess.close, hdead]
  refine ⟨?_, ?_, ?_, ?_, ?_⟩ <;>
    simp [SingleAgentProcess.explore, SingleAgentProcess.evaluate,
          SingleAgentProcess.update, SingleAgentProcess.explore_and_update,
          SingleAgentProcess.heatup, SingleAgentProcess.putTask, hqc, hclose]

/-- Counterexample to claim C7 as stated: `heatup` is a task-dispatch method
of the handle, yet on a closed task channel its enqueue raises `ValueError`
to the caller instead of triggering the close path. -/
theorem claim_C7_counterexample :
    SingleAgentProcess.heatup ⟨true, false, false, true, true, 0⟩ =
      Except.error Single.PyErr.valueError := by rfl

/-- Witness for C7 at a concrete input: handle whose worker already shut
down cooperatively (termination flag set, queues closed by the worker's
epilogue). -/
theorem claim_C7_witness :
    SingleAgentProcess.explore ⟨false⟩ ⟨true, false, false, true, true, 3⟩ =
      Except.ok (⟨true, false, false, true, true, 3⟩, true) ∧
    SingleAgentProcess.evaluate ⟨false⟩ ⟨true, false, false, true, true, 3⟩ =
      Except.ok (⟨true, false, false, true, true, 3⟩, true) ∧
    SingleAgentProcess.update ⟨false⟩ ⟨true, false, false, true, true, 3⟩ =
      Except.ok (⟨true, false, false, true, true, 3⟩, true) ∧
    SingleAgentProcess.explore_and_update ⟨false⟩
        ⟨true, false, false, true, true, 3⟩ =
      Except.ok (⟨true, false, false, true, true, 3⟩, true) ∧
    SingleAgentProcess.heatup ⟨true, false, false, true, true, 3⟩ =
      Except.error Single.PyErr.valueError :=
  claim_C7_dispatch_channel_closed ⟨false⟩
    ⟨true, false, false, true, true, 3⟩ rfl rfl

namespace Counters

/-- Modelled from the spec: the shared progress-counter classes
(`StepCounterShared`/`EpisodeCounterShared`, referenced by
`singelagentprocess.py` and mutated under `with counter.lock:` in
`single.py`) are not among the sources at hand.  Per the spec they hold one
integer tally per phase, mutated by `increment(delta)` under an exclusive
lock by the single owning worker and read by `snapshot()`, which copies all
fields together under the same lock. -/
structure CounterFields where
  heatup : ℕ
  exploration : ℕ
  evaluation : ℕ
  update : ℕ
deriving DecidableEq, Repr

/-- The phase field an increment targets. -/
inductive CounterField
  | heatupF
  | explorationF
  | evaluationF
  | updateF
deriving DecidableEq, Repr

/-- Modelled from the spec: `increment(delta)` adds `delta` to the targeted
field inside the lock-protected critical section. -/
def increment (c : CounterFields) : CounterField × ℕ → CounterFields
  | (CounterField.heatupF, d) => {c with heatup := c.heatup + d}
  | (CounterField.explorationF, d) => {c with exploration := c.exploration + d}
  | (CounterField.evaluationF, d) => {c with evaluation := c.evaluation + d}
  | (CounterField.updateF, d) => {c with update := c.update + d}

/-- One atomic action in an interleaved history: a locked `increment` by the
owning worker, or a locked `snapshot` copy by some reader.  Because both
operations take the same exclusive lock, a concurrent history is a sequence
of these atomic actions. -/
inductive CounterEvent
  | inc (i : CounterField × ℕ)
  | snap
deriving DecidableEq, Repr

/-- Replays an interleaved history from counter value `c`: returns the
final counter and the values captured by the snapshots, in history order. -/
def runCounter (c : CounterFields) :
    List CounterEvent → CounterFields × List CounterFields
  | [] => (c, [])
  | CounterEvent.inc i :: evs => runCounter (increment c i) evs
  | CounterEvent.snap :: evs =>
    let r := runCounter c evs
    (r.1, c :: r.2)

/-- The worker's increment sequence embedded in a history. -/
def incsOf : List CounterEvent → List (CounterField × ℕ)
  | [] => []
  | CounterEvent.inc i :: evs => i :: incsOf evs
  | CounterEvent.snap :: evs => incsOf evs

end Counters

/-- Claim C9: for every sequence of `increment(delta)` calls by the single
owning worker, interleaved arbitrarily with `snapshot()` calls from any
number of concurrent readers, each snapshot returns a counter value equal to
the initial value with some prefix of the increment sequence applied — never
a torn read mixing pre- and post-increment fields. -/
theorem claim_C9_snapshot_consistent (evs : List Counters.CounterEvent)
    (c0 : Counters.CounterFields) (v : Counters.CounterFields)
    (hv : v ∈ (Counters.runCounter c0 evs).2) :
    ∃ k, v = ((Counters.incsOf evs).take k).foldl Counters.increment c0 := by
  induction evs generalizing c0 with
  | nil => simp [Counters.runCounter] at hv
  | cons e evs ih =>
    cases e with
    | inc i =>
      have hv' : v ∈ (Counters.runCounter (Counters.increment c0 i) evs).2 := by
        simpa [Counters.runCounter] using hv
      obtain ⟨k, hk⟩ := ih (Counters.increment c0 i) hv'
      exact ⟨k + 1, by simpa [Counters.incsOf, List.take, List.foldl] using hk⟩
    | snap =>
      rw [show Counters.runCounter c0 (Counters.CounterEvent.snap :: evs) =
        ((Counters.runCounter c0 evs).1,
          c0 :: (Counters.runCounter c0 evs).2) from rfl] at hv
      rcases List.mem_cons.mp hv with rfl | hv'
      · exact ⟨0, by simp⟩
      · obtain ⟨k, hk⟩ := ih c0 hv'
        exact ⟨k, by simpa [Counters.incsOf] using hk⟩

/-- Witness for C9 at a concrete input: history
inc(heatup, 2), snap, inc(exploration, 3), snap starting from zeroed
counters; the claim is applied to the first captured snapshot. -/
theorem claim_C9_witness :
    ∃ k, (⟨2, 0, 0, 0⟩ : Counters.CounterFields) =
      ((Counters.incsOf
        [Counters.CounterEvent.inc (Counters.CounterField.heatupF, 2),
         Counters.CounterEvent.snap,
         Counters.CounterEvent.inc (Counters.CounterField.explorationF, 3),
         Counters.CounterEvent.snap]).take k).foldl
        Counters.increment ⟨0, 0, 0, 0⟩ :=
  claim_C9_snapshot_consistent
    [Counters.CounterEvent.inc (Counters.CounterField.heatupF, 2),
     Counters.CounterEvent.snap,
     Counters.CounterEvent.inc (Counters.CounterField.explorationF, 3),
     Counters.CounterEvent.snap]
    ⟨0, 0, 0, 0⟩ ⟨2, 0, 0, 0⟩ (by decide)
